import Mathlib

/-!
# Verification of the sports-leagues store (`useSportsLeaguesStore`)

Shallow embedding of the Pinia store defined in the repository
(`stores` module, also given as `src/unnamed/part_001`): the league
catalog with its derived views (`availableSports`, `filteredLeagues`)
and the badge cache with its resolver (`fetchBadge`), plus the league
loader (`fetchLeagues`).

Modelling conventions:
* JavaScript strings are modelled as `String`; a nullable / possibly
  absent string field (`string | null | undefined`) is `Option String`.
* JavaScript string truthiness (`if (s)`) is `strTruthy` / `truthy`.
* `String.prototype.toLowerCase` is `jsToLower` (per-char `Char.toLower`),
  `String.prototype.trim` is `jsTrim`, `String.prototype.includes` is
  `jsIncludes`; all are structurally recursive so that concrete runs
  evaluate inside the kernel.
* The `Record<string, string>` backing the badge cache is an association
  list `BadgeCache` with lookup `cacheGet` and key assignment `cacheSet`.
* The asynchronous fetch collaborators are black boxes (spec section 6),
  so each store action takes the outcome of its single fetch call as an
  explicit `Except` argument; a thrown / rejected JavaScript value is a
  `ThrownValue`.  The number of fetcher invocations performed by a call
  is returned explicitly so that claims about "no network call" are
  statements about a `Nat` field.
* UI side effects (toast notifications, console logging) are not part of
  the data contract and are not modelled.
-/

/-- A league record, fields as in the repository type `League`
(`idLeague`, `strLeague`, `strSport`, `strLeagueAlternate`).  The store
code accesses `strLeague` and `strLeagueAlternate` through optional
chaining and checks `strSport` for truthiness, so at runtime each of
these may be absent; they are therefore modelled as `Option String`. -/
structure League where
  idLeague : String
  strLeague : Option String
  strSport : Option String
  strLeagueAlternate : Option String
deriving DecidableEq, Repr

/-- A season record (`strSeason`, optional `strBadge`). -/
structure Season where
  strSeason : Option String
  strBadge : Option String
deriving DecidableEq, Repr

/-- JavaScript truthiness of a string: truthy iff non-empty. -/
def strTruthy (s : String) : Bool := s != ""

/-- JavaScript truthiness of a nullable string value. -/
def truthy : Option String → Bool
  | some s => strTruthy s
  | none => false

/-- Model of `String.prototype.toLowerCase`, per character. -/
def jsToLower (s : String) : String := ⟨s.data.map Char.toLower⟩

/-- Model of `String.prototype.trim`: drop whitespace from both ends. -/
def jsTrim (s : String) : String :=
  ⟨((s.data.dropWhile Char.isWhitespace).reverse.dropWhile Char.isWhitespace).reverse⟩

/-- Helper for `jsIncludes`: does `needle` occur contiguously in the
second list?  Structural recursion on the haystack. -/
def inclAux (needle : List Char) : List Char → Bool
  | [] => needle.isPrefixOf []
  | c :: rest => needle.isPrefixOf (c :: rest) || inclAux needle rest

/-- Model of `hay.includes(needle)` for JavaScript strings. -/
def jsIncludes (hay needle : String) : Bool := inclAux needle.data hay.data

/-- Substring test `field?.toLowerCase().includes(term)` on an optional,
lowercased field; an absent field never matches. -/
def optFieldIncludes (field : Option String) (term : String) : Bool :=
  match field with
  | some s => jsIncludes (jsToLower s) term
  | none => false

/-- The search predicate of `filteredLeagues`:
`league.strLeague?.toLowerCase().includes(term) ||
 league.strLeagueAlternate?.toLowerCase().includes(term)`. -/
def matchesSearch (term : String) (l : League) : Bool :=
  optFieldIncludes l.strLeague term || optFieldIncludes l.strLeagueAlternate term

/-- The reactive state of the store: refs `leagues`, `loading`, `error`,
`searchTerm`, `selectedSport`. -/
structure StoreState where
  leagues : List League
  loading : Bool
  error : Option String
  searchTerm : String
  selectedSport : Option String
deriving DecidableEq, Repr

/-- The computed `filteredLeagues`: filter by search term when the
trimmed term is truthy (matching against the term lowercased, not
trimmed), then filter by sport when `selectedSport` is truthy. -/
def filteredLeagues (st : StoreState) : List League :=
  let afterSearch :=
    if strTruthy (jsTrim st.searchTerm) then
      st.leagues.filter (matchesSearch (jsToLower st.searchTerm))
    else
      st.leagues
  if truthy st.selectedSport then
    afterSearch.filter (fun l => l.strSport == st.selectedSport)
  else
    afterSearch

/-- One step of the `Set` accumulation in `availableSports`: JavaScript
`Set.add` appends the element unless already present. -/
def jsSetInsert (acc : List String) (s : String) : List String :=
  if s ∈ acc then acc else acc ++ [s]

/-- Body of the `forEach` in `availableSports`: `if (league.strSport)
sports.add(league.strSport)`. -/
def addSport (acc : List String) (l : League) : List String :=
  match l.strSport with
  | some s => if strTruthy s then jsSetInsert acc s else acc
  | none => acc

/-- The computed `availableSports`: collect the truthy `strSport` values
into a `Set`, then `Array.from(...).sort()` (ascending lexicographic). -/
def availableSports (st : StoreState) : List String :=
  List.insertionSort (· ≤ ·) (st.leagues.foldl addSport [])

/-- Setting the writable ref `searchTerm` exposed by the store. -/
def setSearchTerm (st : StoreState) (t : String) : StoreState :=
  { st with searchTerm := t }

/-- Setting the writable ref `selectedSport` exposed by the store. -/
def setSport (st : StoreState) (s : Option String) : StoreState :=
  { st with selectedSport := s }

/-- Replacing the league collection (`leagues.value = ...`). -/
def load (st : StoreState) (ls : List League) : StoreState :=
  { st with leagues := ls }

/-- A JavaScript value thrown by / rejected from a fetch collaborator:
either an `Error` object (carrying its `message`) or any other value. -/
inductive ThrownValue where
  | jsError (message : String)
  | nonError (description : String)
deriving DecidableEq, Repr

/-- Message extraction `err instanceof Error ? err.message : fallback`. -/
def caughtMessage (e : ThrownValue) (fallback : String) : String :=
  match e with
  | .jsError m => m
  | .nonError _ => fallback

/-- The `fetchLeagues` action.  The single call to the fetch
collaborator is abstracted by its outcome: `Except.error e` when the
awaited fetch rejects with `e`, `Except.ok resp` when it resolves, where
`resp = some ls` if `response?.leagues` is a list and `resp = none` if
the response is nullish or has no `leagues` list.  The function is total
and returns the new store state: the action never re-throws (the catch
block swallows the error after recording it, and the toast shown for
rate-limit messages is a UI effect outside the model). -/
def fetchLeagues (st : StoreState) (outcome : Except ThrownValue (Option (List League))) :
    StoreState :=
  let entered := { st with loading := true, error := none }
  match outcome with
  | .ok (some ls) => { entered with leagues := ls, loading := false }
  | .ok none => { entered with leagues := [], loading := false }
  | .error e =>
      { entered with
          error := some (caughtMessage e "Failed to fetch leagues"),
          loading := false }

/-- The durable badge cache: the `Record<string, string>` persisted
under the `league-badges` storage key, as an association list with at
most one binding per key (maintained by `cacheSet`). -/
abbrev BadgeCache := List (String × String)

/-- Reading `badgeCache.value[leagueId]`. -/
def cacheGet (c : BadgeCache) (id : String) : Option String :=
  match c with
  | [] => none
  | (k, v) :: rest => if k = id then some v else cacheGet rest id

/-- Writing `badgeCache.value[leagueId] = badgeUrl`: replace the binding
if the key is present, otherwise append it. -/
def cacheSet (c : BadgeCache) (id v : String) : BadgeCache :=
  match c with
  | [] => [(id, v)]
  | (k, w) :: rest => if k = id then (k, v) :: rest else (k, w) :: cacheSet rest id v

instance {ε α : Type} [DecidableEq ε] [DecidableEq α] : DecidableEq (Except ε α) :=
  fun a b =>
    match a, b with
    | .ok x, .ok y => decidable_of_iff (x = y) (by simp)
    | .error x, .error y => decidable_of_iff (x = y) (by simp)
    | .ok _, .error _ => isFalse (by simp)
    | .error _, .ok _ => isFalse (by simp)

/-- Result of one `fetchBadge` call: the value returned to the caller
(or the value thrown), the badge cache after the call, and how many
times the fetch collaborator was invoked during the call. -/
structure BadgeResult where
  outcome : Except ThrownValue (Option String)
  cache : BadgeCache
  fetchCalls : Nat
deriving DecidableEq, Repr

/-- The `fetchBadge` action.  `fetchOutcome` is the outcome of the one
fetch call made on a cache miss: `Except.error e` when the awaited fetch
rejects with `e`; `Except.ok (some seasons)` when it resolves to a
response with a `seasons` list; `Except.ok none` when the response is
nullish or carries no `seasons` list (so `response?.seasons` is falsy).
Stepwise correspondence with the source:
* `if (badgeCache.value[leagueId])` — truthiness of the cache entry;
  on a hit the entry is returned with zero fetch calls;
* `response.seasons.length > 0` and `seasons[seasons.length - 1]` —
  `List.getLast?` is `some` exactly on a non-empty list;
* `if (latestSeason.strBadge)` — truthiness of the badge field; when
  truthy the URL is written to the cache and returned;
* the catch block re-throws `new Error(errorMessage)` where
  `errorMessage` is `err.message` for an `Error` and the literal
  fallback otherwise (the toast on rate-limit messages is a UI effect
  outside the model). -/
def fetchBadge (cache : BadgeCache) (leagueId : String)
    (fetchOutcome : Except ThrownValue (Option (List Season))) : BadgeResult :=
  if truthy (cacheGet cache leagueId) then
    ⟨.ok (cacheGet cache leagueId), cache, 0⟩
  else
    match fetchOutcome with
    | .error e => ⟨.error (.jsError (caughtMessage e "Failed to fetch badge")), cache, 1⟩
    | .ok none => ⟨.ok none, cache, 1⟩
    | .ok (some seasons) =>
        match seasons.getLast? with
        | none => ⟨.ok none, cache, 1⟩
        | some latest =>
            match latest.strBadge with
            | some b =>
                if strTruthy b then ⟨.ok (some b), cacheSet cache leagueId b, 1⟩
                else ⟨.ok none, cache, 1⟩
            | none => ⟨.ok none, cache, 1⟩

/-- Spec-side membership predicate for claim C1, written from the spec
sentence: a league passes the filter `(t, s)` iff (`s` is null or the
league sport equals `s`) and (`t` trimmed is empty or `t`, compared
case-insensitively against a trimmed copy of the term, is a substring of
the name or of the alternate name).  This definition follows the words
of the specification (for comparison with `filteredLeagues`); in
particular the term is trimmed before matching. -/
def specFilterPred (l : League) (t : String) (s : Option String) : Bool :=
  (match s with
   | none => true
   | some sp => l.strSport == some sp) &&
  (jsTrim t == "" ||
   optFieldIncludes l.strLeague (jsToLower (jsTrim t)) ||
   optFieldIncludes l.strLeagueAlternate (jsToLower (jsTrim t)))

/-! ## Basic lemmas -/

theorem strTruthy_eq_false_iff (s : String) : strTruthy s = false ↔ s = "" := by
  simp [strTruthy]

theorem truthy_eq_false_iff (o : Option String) :
    truthy o = false ↔ o = none ∨ o = some "" := by
  cases o with
  | none => simp [truthy]
  | some s => simp [truthy, strTruthy_eq_false_iff]

theorem inclAux_eq_true_iff (n : List Char) (h : List Char) :
    inclAux n h = true ↔ List.IsInfix n h := by
  induction h with
  | nil =>
      simp [inclAux, List.isPrefixOf_iff_prefix, List.prefix_nil, List.infix_nil]
  | cons c rest ih =>
      rw [List.infix_cons_iff]
      simp [inclAux, List.isPrefixOf_iff_prefix, ih]

theorem jsIncludes_eq_true_iff (hay needle : String) :
    jsIncludes hay needle = true ↔ List.IsInfix needle.data hay.data :=
  inclAux_eq_true_iff needle.data hay.data

theorem optFieldIncludes_eq_true_iff (f : Option String) (term : String) :
    optFieldIncludes f term = true ↔
      ∃ s, f = some s ∧ List.IsInfix term.data (jsToLower s).data := by
  cases f with
  | none => simp [optFieldIncludes]
  | some s => simp [optFieldIncludes, jsIncludes_eq_true_iff]

theorem matchesSearch_eq_true_iff (term : String) (l : League) :
    matchesSearch term l = true ↔
      (∃ s, l.strLeague = some s ∧ List.IsInfix term.data (jsToLower s).data) ∨
      (∃ s, l.strLeagueAlternate = some s ∧ List.IsInfix term.data (jsToLower s).data) := by
  simp [matchesSearch, optFieldIncludes_eq_true_iff]

theorem truthy_eq_true_iff (o : Option String) :
    truthy o = true ↔ ∃ s, o = some s ∧ s ≠ "" := by
  cases o with
  | none => simp [truthy]
  | some s => simp [truthy, strTruthy]

theorem cacheGet_cacheSet_self (c : BadgeCache) (id v : String) :
    cacheGet (cacheSet c id v) id = some v := by
  induction c with
  | nil => simp [cacheSet, cacheGet]
  | cons p rest ih =>
      by_cases h : p.1 = id <;>
        simp [cacheSet, cacheGet, h, ih]

/-- Membership characterization of `filteredLeagues`, as the code
computes it: a league is in the filtered view iff it is among the loaded
leagues, the search condition holds (trimmed term empty, or the
lowercased but untrimmed term occurs in the lowercased name or the
lowercased alternate name), and the sport condition holds (no truthy
sport selected, or the league sport equals the selected one). -/
theorem mem_filteredLeagues_iff (st : StoreState) (L : League) :
    L ∈ filteredLeagues st ↔
      L ∈ st.leagues ∧
      (jsTrim st.searchTerm = "" ∨
        (∃ s, L.strLeague = some s ∧
          List.IsInfix (jsToLower st.searchTerm).data (jsToLower s).data) ∨
        (∃ s, L.strLeagueAlternate = some s ∧
          List.IsInfix (jsToLower st.searchTerm).data (jsToLower s).data)) ∧
      (st.selectedSport = none ∨ st.selectedSport = some "" ∨
        L.strSport = st.selectedSport) := by
  unfold filteredLeagues
  by_cases hterm : jsTrim st.searchTerm = ""
  · have ht : strTruthy (jsTrim st.searchTerm) = false :=
      (strTruthy_eq_false_iff _).mpr hterm
    by_cases hsport : truthy st.selectedSport = true
    · obtain ⟨sp, hsp, hspne⟩ := (truthy_eq_true_iff _).mp hsport
      simp only [ht, hsport, Bool.false_eq_true, if_false, if_true,
        List.mem_filter, beq_iff_eq]
      constructor
      · rintro ⟨hmem, heq⟩
        exact ⟨hmem, Or.inl hterm, Or.inr (Or.inr heq)⟩
      · rintro ⟨hmem, -, hsp2⟩
        refine ⟨hmem, ?_⟩
        rcases hsp2 with h | h | h
        · rw [h] at hsp; cases hsp
        · rw [h] at hsp; injection hsp with h2; exact absurd h2.symm hspne
        · exact h
    · have hs := (truthy_eq_false_iff _).mp (eq_false_of_ne_true hsport)
      simp only [ht, Bool.false_eq_true, if_false, eq_false_of_ne_true hsport]
      constructor
      · intro hmem
        refine ⟨hmem, Or.inl hterm, ?_⟩
        rcases hs with h | h
        · exact Or.inl h
        · exact Or.inr (Or.inl h)
      · rintro ⟨hmem, -, -⟩
        exact hmem
  · have ht : strTruthy (jsTrim st.searchTerm) = true := by
      cases h : strTruthy (jsTrim st.searchTerm)
      · exact absurd ((strTruthy_eq_false_iff _).mp h) hterm
      · rfl
    have hsearch : ∀ l : League,
        (matchesSearch (jsToLower st.searchTerm) l = true ↔
          (∃ s, l.strLeague = some s ∧
            List.IsInfix (jsToLower st.searchTerm).data (jsToLower s).data) ∨
          (∃ s, l.strLeagueAlternate = some s ∧
            List.IsInfix (jsToLower st.searchTerm).data (jsToLower s).data)) :=
      fun l => matchesSearch_eq_true_iff _ l
    by_cases hsport : truthy st.selectedSport = true
    · obtain ⟨sp, hsp, hspne⟩ := (truthy_eq_true_iff _).mp hsport
      simp only [ht, hsport, if_true, List.mem_filter, beq_iff_eq]
      constructor
      · rintro ⟨⟨hmem, hmatch⟩, heq⟩
        exact ⟨hmem, Or.inr ((hsearch L).mp hmatch), Or.inr (Or.inr heq)⟩
      · rintro ⟨hmem, hsearch2, hsp2⟩
        rcases hsearch2 with h | h
        · exact absurd h hterm
        · refine ⟨⟨hmem, (hsearch L).mpr h⟩, ?_⟩
          rcases hsp2 with h2 | h2 | h2
          · rw [h2] at hsp; cases hsp
          · rw [h2] at hsp; injection hsp with h3; exact absurd h3.symm hspne
          · exact h2
    · have hs := (truthy_eq_false_iff _).mp (eq_false_of_ne_true hsport)
      simp only [ht, if_true, eq_false_of_ne_true hsport, Bool.false_eq_true,
        if_false, List.mem_filter]
      constructor
      · rintro ⟨hmem, hmatch⟩
        refine ⟨hmem, Or.inr ((hsearch L).mp hmatch), ?_⟩
        rcases hs with h | h
        · exact Or.inl h
        · exact Or.inr (Or.inl h)
      · rintro ⟨hmem, hsearch2, -⟩
        rcases hsearch2 with h | h
        · exact absurd h hterm
        · exact ⟨hmem, (hsearch L).mpr h⟩

theorem mem_jsSetInsert (acc : List String) (x s : String) :
    s ∈ jsSetInsert acc x ↔ s ∈ acc ∨ s = x := by
  unfold jsSetInsert
  by_cases h : x ∈ acc
  · simp only [h, if_true]
    constructor
    · exact Or.inl
    · rintro (hs | rfl)
      · exact hs
      · exact h
  · simp [h]

theorem nodup_jsSetInsert (acc : List String) (x : String) (h : acc.Nodup) :
    (jsSetInsert acc x).Nodup := by
  unfold jsSetInsert
  by_cases hx : x ∈ acc
  · simp [hx, h]
  · simp [hx, h, List.nodup_append, List.disjoint_singleton]

theorem mem_addSport (acc : List String) (l : League) (s : String) :
    s ∈ addSport acc l ↔ s ∈ acc ∨ (l.strSport = some s ∧ s ≠ "") := by
  unfold addSport
  cases hs : l.strSport with
  | none => simp
  | some v =>
      dsimp only
      by_cases hv : v = ""
      · subst hv
        rw [if_neg (by simp [strTruthy])]
        constructor
        · exact Or.inl
        · rintro (h | ⟨heq, hne⟩)
          · exact h
          · injection heq with h2
            exact absurd h2.symm hne
      · have hv2 : strTruthy v = true := by simp [strTruthy, hv]
        rw [if_pos hv2]
        rw [mem_jsSetInsert]
        constructor
        · rintro (h | rfl)
          · exact Or.inl h
          · exact Or.inr ⟨rfl, hv⟩
        · rintro (h | ⟨heq, -⟩)
          · exact Or.inl h
          · injection heq with h2
            exact Or.inr h2.symm

theorem nodup_addSport (acc : List String) (l : League) (h : acc.Nodup) :
    (addSport acc l).Nodup := by
  unfold addSport
  cases l.strSport with
  | none => exact h
  | some v =>
      cases hv : strTruthy v with
      | false => simpa [hv] using h
      | true => simpa [hv] using nodup_jsSetInsert acc v h

theorem mem_foldl_addSport (ls : List League) :
    ∀ (acc : List String) (s : String),
      s ∈ ls.foldl addSport acc ↔
        s ∈ acc ∨ ∃ l, l ∈ ls ∧ l.strSport = some s ∧ s ≠ "" := by
  induction ls with
  | nil => intro acc s; simp
  | cons l t ih =>
      intro acc s
      rw [List.foldl_cons, ih, mem_addSport]
      constructor
      · rintro ((h | h) | ⟨l', hl', hp⟩)
        · exact Or.inl h
        · exact Or.inr ⟨l, List.mem_cons_self l t, h⟩
        · exact Or.inr ⟨l', List.mem_cons_of_mem l hl', hp⟩
      · rintro (h | ⟨l', hl', hp⟩)
        · exact Or.inl (Or.inl h)
        · rcases List.mem_cons.mp hl' with rfl | hmem
          · exact Or.inl (Or.inr hp)
          · exact Or.inr ⟨l', hmem, hp⟩

theorem nodup_foldl_addSport (ls : List League) :
    ∀ acc : List String, acc.Nodup → (ls.foldl addSport acc).Nodup := by
  induction ls with
  | nil => intro acc h; simpa using h
  | cons l t ih =>
      intro acc h
      rw [List.foldl_cons]
      exact ih _ (nodup_addSport acc l h)

/-- C6 — for every loaded league list and every search-term and
sport-filter state, `filteredLeagues()` is an order-preserving
subsequence of `leagues`: the result is a `List.Sublist` of the loaded
list, so every element of the result occurs in `leagues` in the same
relative order. -/
theorem filteredLeagues_sublist (st : StoreState) :
    List.Sublist (filteredLeagues st) st.leagues := by
  unfold filteredLeagues
  by_cases h1 : strTruthy (jsTrim st.searchTerm) = true <;>
    by_cases h2 : truthy st.selectedSport = true
  · simp only [h1, h2, if_true]
    exact (List.filter_sublist _).trans (List.filter_sublist _)
  · simp only [h1, eq_false_of_ne_true h2, Bool.false_eq_true, if_true, if_false]
    exact List.filter_sublist _
  · simp only [eq_false_of_ne_true h1, h2, Bool.false_eq_true, if_true, if_false]
    exact List.filter_sublist _
  · simp only [eq_false_of_ne_true h1, eq_false_of_ne_true h2,
      Bool.false_eq_true, if_false]
    exact List.Sublist.refl _

/-- C7 — `availableSports()` returns exactly the distinct non-empty
sport values occurring across all loaded leagues, with no duplicates, in
ascending lexicographic order, and depends on the `leagues` field alone
(any two states with the same leagues produce the same result). -/
theorem availableSports_spec (st : StoreState) :
    (availableSports st).Nodup ∧
    List.Sorted (· ≤ ·) (availableSports st) ∧
    (∀ s, s ∈ availableSports st ↔
      ∃ l, l ∈ st.leagues ∧ l.strSport = some s ∧ s ≠ "") ∧
    (∀ st' : StoreState, st'.leagues = st.leagues →
      availableSports st' = availableSports st) := by
  refine ⟨?_, ?_, ?_, ?_⟩
  · exact (List.perm_insertionSort _ _).symm.nodup
      (nodup_foldl_addSport st.leagues [] List.nodup_nil)
  · exact List.sorted_insertionSort _ _
  · intro s
    rw [availableSports, (List.perm_insertionSort _ _).mem_iff,
      mem_foldl_addSport]
    simp
  · intro st' h
    unfold availableSports
    rw [h]

/-- Concrete league from the Scenario A data of the specification. -/
def leagueEPL : League :=
  ⟨"1", some "English Premier League", some "Soccer", some "EPL"⟩

/-- Concrete league from the Scenario A data of the specification. -/
def leagueNBA : League :=
  ⟨"2", some "NBA", some "Basketball", some ""⟩

/-- Store state with the Scenario A leagues loaded and the search term
set to the string of a space followed by the letters e, p, l. -/
def stLeadingSpace : StoreState :=
  ⟨[leagueEPL, leagueNBA], false, none, " epl", none⟩

/-- C1 counterexample — under the claimed reading the search term is
trimmed before matching, so a term consisting of a space followed by
"epl" should (after trimming) match the alternate name "EPL" of the
loaded league, which should therefore appear in the filtered view; the
code, however, trims only for the emptiness test and matches the raw
lowercased term including its leading space, so the league is filtered
out. -/
theorem filteredLeagues_untrimmed_counterexample :
    specFilterPred leagueEPL " epl" none = true ∧
    stLeadingSpace.searchTerm = " epl" ∧
    stLeadingSpace.selectedSport = none ∧
    leagueEPL ∈ stLeadingSpace.leagues ∧
    leagueEPL ∉ filteredLeagues stLeadingSpace := by
  refine ⟨by decide, rfl, rfl, by decide, by decide⟩

/-- C1 (amended) — for every loaded league list, search term and sport
filter, a league `L` appears in `filteredLeagues()` iff (the selected
sport is null or the empty string, or the sport of `L` equals it) and
(the term trimmed is empty, or the term lowercased — untrimmed, since
the code trims only for the emptiness test — is a substring of the
lowercased name or of the lowercased alternate name); a league with no
`alternateName` is matched only on `name`, and one with no `name` only
on `alternateName`. -/
theorem filteredLeagues_membership (st : StoreState) (L : League) :
    L ∈ filteredLeagues st ↔
      L ∈ st.leagues ∧
      (jsTrim st.searchTerm = "" ∨
        (∃ s, L.strLeague = some s ∧
          List.IsInfix (jsToLower st.searchTerm).data (jsToLower s).data) ∨
        (∃ s, L.strLeagueAlternate = some s ∧
          List.IsInfix (jsToLower st.searchTerm).data (jsToLower s).data)) ∧
      (st.selectedSport = none ∨ st.selectedSport = some "" ∨
        L.strSport = st.selectedSport) :=
  mem_filteredLeagues_iff st L

/-- League with a missing name and a missing alternate name, for the C8
witness. -/
def leagueBlank : League := ⟨"9", none, some "Soccer", none⟩

/-- Store state holding only `leagueBlank`, with a non-empty search
term, for the C8 witness. -/
def stBlank : StoreState := ⟨[leagueBlank], false, none, "x", none⟩

/-- C8 — the catalog operations are total functions: `load`,
`setSearchTerm` and `setSport` accept any input (including the empty
list and empty strings) and simply store it, the derived views are
defined for every state, and malformed input degrades to "no match"
rather than erroring: on an empty league list both views are empty, and
a league whose name and alternate name are both missing never matches a
non-empty search term.  No operation has an exceptional exit: each is a
total Lean function into plain (non-`Except`) result types, mirroring
the absence of any throw in the source. -/
theorem catalog_ops_safe :
    (∀ (st : StoreState) (ls : List League), (load st ls).leagues = ls) ∧
    (∀ (st : StoreState) (t : String), (setSearchTerm st t).searchTerm = t) ∧
    (∀ (st : StoreState) (sp : Option String), (setSport st sp).selectedSport = sp) ∧
    (∀ st : StoreState, st.leagues = [] →
      filteredLeagues st = [] ∧ availableSports st = []) ∧
    (∀ (st : StoreState) (L : League), L ∈ st.leagues →
      L.strLeague = none → L.strLeagueAlternate = none →
      jsTrim st.searchTerm ≠ "" → L ∉ filteredLeagues st) := by
  refine ⟨fun _ _ => rfl, fun _ _ => rfl, fun _ _ => rfl, ?_, ?_⟩
  · intro st h
    constructor
    · have := filteredLeagues_sublist st
      rw [h] at this
      exact List.sublist_nil.mp this
    · unfold availableSports
      rw [h]
      rfl
  · intro st L _ h1 h2 hterm hcontra
    obtain ⟨-, hsearch, -⟩ := (mem_filteredLeagues_iff st L).mp hcontra
    rcases hsearch with h | ⟨s, hs, -⟩ | ⟨s, hs, -⟩
    · exact hterm h
    · rw [h1] at hs; cases hs
    · rw [h2] at hs; cases hs

/-- C8 witness — the malformed-league instance of `catalog_ops_safe`:
the league with both name fields missing does not match the non-empty
term "x". -/
theorem catalog_ops_safe_witness : leagueBlank ∉ filteredLeagues stBlank :=
  catalog_ops_safe.2.2.2.2 stBlank leagueBlank (by decide) rfl rfl (by decide)

/-- C9 — `fetchLeagues` never rejects (it is a total function into the
state, with no exceptional result): on fetch failure it stores the
caught message in the `error` field (the message of the rejection when
it is an `Error`, the fallback text otherwise), leaves the previously
loaded `leagues` unchanged, and resets `loading` to false; for every
outcome, successful or not, `loading` is false afterwards. -/
theorem fetchLeagues_error_state (st : StoreState) (e : ThrownValue) :
    (fetchLeagues st (Except.error e)).error
        = some (caughtMessage e "Failed to fetch leagues") ∧
    (fetchLeagues st (Except.error e)).leagues = st.leagues ∧
    (fetchLeagues st (Except.error e)).loading = false ∧
    (∀ outcome, (fetchLeagues st outcome).loading = false) := by
  refine ⟨rfl, rfl, rfl, ?_⟩
  intro outcome
  rcases outcome with e' | r
  · rfl
  · rcases r with - | ls <;> rfl

/-- C4 (amended) — for every league id present in the badge cache with a
non-empty value, `fetchBadge` returns that cached URL immediately, makes
no fetcher call, and leaves the cache unchanged, whatever the fetcher
would have produced. -/
theorem fetchBadge_cache_hit (cache : BadgeCache) (id v : String)
    (outcome : Except ThrownValue (Option (List Season)))
    (hv : cacheGet cache id = some v) (hne : v ≠ "") :
    fetchBadge cache id outcome = ⟨Except.ok (some v), cache, 0⟩ := by
  have ht : truthy (cacheGet cache id) = true := by
    rw [hv]; simp [truthy, strTruthy, hne]
  unfold fetchBadge
  rw [if_pos ht, hv]

/-- C4 witness — a concrete cache hit: an entry for id "1" is returned
with zero fetcher calls. -/
theorem fetchBadge_cache_hit_witness :
    fetchBadge [("1", "http://x/badge.png")] "1" (Except.ok none)
      = ⟨Except.ok (some "http://x/badge.png"), [("1", "http://x/badge.png")], 0⟩ :=
  fetchBadge_cache_hit [("1", "http://x/badge.png")] "1" "http://x/badge.png"
    (Except.ok none) rfl (by decide)

/-- C4 counterexample — a league id whose cache entry holds the empty
string is present in the cache, yet `fetchBadge` invokes the fetcher:
the code tests the entry for truthiness, not for presence, so "already
present" does not suffice for the no-network guarantee. -/
theorem fetchBadge_present_entry_still_fetches :
    (cacheGet [("1", "")] "1").isSome = true ∧
    (fetchBadge [("1", "")] "1" (Except.ok none)).fetchCalls = 1 := by
  decide

/-- C2 (amended) — on a cache miss, when the fetch rejects with any
value `e`, `fetchBadge` throws a freshly constructed `Error` whose
message is the message of `e` when `e` is an `Error` and the fallback
text "Failed to fetch badge" otherwise; the fetcher is invoked exactly
once (no retry) and no cache entry is written. -/
theorem fetchBadge_error_propagation (cache : BadgeCache) (id : String)
    (e : ThrownValue) (hmiss : truthy (cacheGet cache id) = false) :
    fetchBadge cache id (Except.error e)
      = ⟨Except.error (ThrownValue.jsError (caughtMessage e "Failed to fetch badge")),
          cache, 1⟩ := by
  unfold fetchBadge
  rw [if_neg (by rw [hmiss]; exact Bool.false_ne_true)]

/-- C2 witness — a concrete rejected fetch on an empty cache: the
rejection of an `Error` with message "HTTP 429" is re-thrown as an
`Error` with the same message, with one fetcher call and no cache
write. -/
theorem fetchBadge_error_propagation_witness :
    fetchBadge [] "4328" (Except.error (ThrownValue.jsError "HTTP 429"))
      = ⟨Except.error (ThrownValue.jsError "HTTP 429"), [], 1⟩ :=
  fetchBadge_error_propagation [] "4328" (ThrownValue.jsError "HTTP 429") rfl

/-- C2 counterexample — the rejection is not propagated unmodified: a
non-`Error` rejected value (here the description of a plain string
rejection) is replaced by a new `Error` carrying the fallback message,
a different value from the one the fetcher rejected with. -/
theorem fetchBadge_error_wrapped :
    (fetchBadge [] "1" (Except.error (ThrownValue.nonError "boom"))).outcome
        = Except.error (ThrownValue.jsError "Failed to fetch badge") ∧
    ThrownValue.jsError "Failed to fetch badge" ≠ ThrownValue.nonError "boom" := by
  decide

/-- C3 — on a cache miss, when the fetch resolves to a non-empty season
list whose last element carries a non-empty badge URL, `fetchBadge`
returns that URL, writes it into the cache under the league id (one
fetcher call), a subsequent `cacheGet` of the id yields the URL, and a
subsequent `fetchBadge` for the id returns the same URL with zero
fetcher calls, whatever its fetch outcome would have been. -/
theorem fetchBadge_miss_caches (cache : BadgeCache) (id : String)
    (seasons : List Season) (latest : Season) (b : String)
    (hmiss : cacheGet cache id = none)
    (hlast : seasons.getLast? = some latest)
    (hbadge : latest.strBadge = some b)
    (hb : b ≠ "") :
    fetchBadge cache id (Except.ok (some seasons))
        = ⟨Except.ok (some b), cacheSet cache id b, 1⟩ ∧
    cacheGet (cacheSet cache id b) id = some b ∧
    (∀ outcome2, fetchBadge (cacheSet cache id b) id outcome2
        = ⟨Except.ok (some b), cacheSet cache id b, 0⟩) := by
  refine ⟨?_, cacheGet_cacheSet_self cache id b, ?_⟩
  · unfold fetchBadge
    rw [if_neg (by rw [hmiss]; exact Bool.false_ne_true)]
    dsimp only
    rw [hlast]
    dsimp only
    rw [hbadge]
    dsimp only
    rw [if_pos (by simp [strTruthy, hb])]
  · intro outcome2
    exact fetchBadge_cache_hit (cacheSet cache id b) id b outcome2
      (cacheGet_cacheSet_self cache id b) hb

/-- Season records of Scenario C of the specification. -/
def seasonOld : Season := ⟨some "2022", none⟩

/-- Season records of Scenario C of the specification. -/
def seasonNew : Season := ⟨some "2023", some "http://x/badge.png"⟩

/-- C3 witness — Scenario C: resolving id "1" against seasons whose last
element carries the badge URL returns it, caches it, and a second
resolve returns it with zero fetcher calls. -/
theorem fetchBadge_miss_caches_witness :
    fetchBadge [] "1" (Except.ok (some [seasonOld, seasonNew]))
        = ⟨Except.ok (some "http://x/badge.png"),
            cacheSet [] "1" "http://x/badge.png", 1⟩ ∧
    cacheGet (cacheSet [] "1" "http://x/badge.png") "1"
        = some "http://x/badge.png" ∧
    fetchBadge (cacheSet [] "1" "http://x/badge.png") "1" (Except.ok none)
        = ⟨Except.ok (some "http://x/badge.png"),
            cacheSet [] "1" "http://x/badge.png", 0⟩ := by
  have h := fetchBadge_miss_caches [] "1" [seasonOld, seasonNew] seasonNew
    "http://x/badge.png" rfl (by decide) rfl (by decide)
  exact ⟨h.1, h.2.1, h.2.2 (Except.ok none)⟩

/-- C5 — on a cache miss, when the fetch resolves to an empty season
list, or to one whose last season has no badge field, `fetchBadge`
returns null, writes nothing (the cache is unchanged, so a lookup of the
id still yields none), the fetcher was called once, and a second
`fetchBadge` for the same id invokes the fetcher again. -/
theorem fetchBadge_no_badge_not_cached (cache : BadgeCache) (id : String)
    (seasons : List Season)
    (hmiss : cacheGet cache id = none)
    (hnone : seasons = [] ∨
      ∃ latest, seasons.getLast? = some latest ∧ latest.strBadge = none) :
    fetchBadge cache id (Except.ok (some seasons)) = ⟨Except.ok none, cache, 1⟩ ∧
    cacheGet ((fetchBadge cache id (Except.ok (some seasons))).cache) id = none ∧
    (fetchBadge ((fetchBadge cache id (Except.ok (some seasons))).cache) id
        (Except.ok (some seasons))).fetchCalls = 1 := by
  have hne : ¬ truthy (cacheGet cache id) = true := by
    rw [hmiss]; exact Bool.false_ne_true
  have h1 : fetchBadge cache id (Except.ok (some seasons))
      = ⟨Except.ok none, cache, 1⟩ := by
    unfold fetchBadge
    rw [if_neg hne]
    dsimp only
    rcases hnone with rfl | ⟨latest, hlast, hb⟩
    · rfl
    · rw [hlast]
      dsimp only
      rw [hb]
  refine ⟨h1, ?_, ?_⟩
  · rw [h1]
    exact hmiss
  · rw [h1]
    show (fetchBadge cache id (Except.ok (some seasons))).fetchCalls = 1
    rw [h1]

/-- C5 witness — Scenario D: resolving id "2" against an empty season
list returns null, caches nothing, and a second resolve calls the
fetcher again. -/
theorem fetchBadge_no_badge_not_cached_witness :
    fetchBadge [] "2" (Except.ok (some [])) = ⟨Except.ok none, [], 1⟩ ∧
    cacheGet ((fetchBadge [] "2" (Except.ok (some []))).cache) "2" = none ∧
    (fetchBadge ((fetchBadge [] "2" (Except.ok (some []))).cache) "2"
        (Except.ok (some []))).fetchCalls = 1 :=
  fetchBadge_no_badge_not_cached [] "2" [] rfl (Or.inl rfl)

/-- C10 — an empty-string value is indistinguishable from an absent one
at the badge interface: a cache entry whose value is the empty string is
treated as a miss (the fetcher is invoked), and a last season whose
badge field is the empty string is treated as carrying no badge (null is
returned and the cache is unchanged). -/
theorem fetchBadge_empty_string_semantics :
    (∀ (cache : BadgeCache) (id : String)
        (outcome : Except ThrownValue (Option (List Season))),
      cacheGet cache id = some "" → (fetchBadge cache id outcome).fetchCalls = 1) ∧
    (∀ (cache : BadgeCache) (id : String) (seasons : List Season) (latest : Season),
      cacheGet cache id = none → seasons.getLast? = some latest →
      latest.strBadge = some "" →
      fetchBadge cache id (Except.ok (some seasons)) = ⟨Except.ok none, cache, 1⟩) := by
  constructor
  · intro cache id outcome hv
    have hne : ¬ truthy (cacheGet cache id) = true := by
      rw [hv]; simp [truthy, strTruthy]
    unfold fetchBadge
    rw [if_neg hne]
    rcases outcome with e | r
    · rfl
    · rcases r with - | seasons
      · rfl
      · dsimp only
        rcases hl : seasons.getLast? with - | latest
        · rfl
        · dsimp only
          rcases hb : latest.strBadge with - | b
          · rfl
          · dsimp only
            by_cases hbe : strTruthy b = true
            · rw [if_pos hbe]
            · rw [if_neg hbe]
  · intro cache id seasons latest hmiss hlast hb
    have hne : ¬ truthy (cacheGet cache id) = true := by
      rw [hmiss]; exact Bool.false_ne_true
    unfold fetchBadge
    rw [if_neg hne]
    dsimp only
    rw [hlast]
    dsimp only
    rw [hb]
    dsimp only
    rw [if_neg (by simp [strTruthy])]

/-- C10 witness — concrete instances of both parts: an empty-string
entry for id "1" triggers a fetch, and a season list ending in an
empty-string badge resolves to null without a cache write. -/
theorem fetchBadge_empty_string_semantics_witness :
    (fetchBadge [("1", "")] "1" (Except.ok none)).fetchCalls = 1 ∧
    fetchBadge [] "1" (Except.ok (some [⟨some "2023", some ""⟩]))
        = ⟨Except.ok none, [], 1⟩ :=
  ⟨fetchBadge_empty_string_semantics.1 [("1", "")] "1" (Except.ok none) rfl,
   fetchBadge_empty_string_semantics.2 [] "1" [⟨some "2023", some ""⟩]
     ⟨some "2023", some ""⟩ rfl rfl rfl⟩

/-- C7 witness — the purity instance of `availableSports_spec`: two
states sharing the Scenario A leagues but differing in every other
field produce the same sport list. -/
theorem availableSports_spec_witness :
    availableSports ⟨[leagueEPL, leagueNBA], true, some "e", "x", some "y"⟩
      = availableSports ⟨[leagueEPL, leagueNBA], false, none, "", none⟩ :=
  (availableSports_spec ⟨[leagueEPL, leagueNBA], false, none, "", none⟩).2.2.2
    ⟨[leagueEPL, leagueNBA], true, some "e", "x", some "y"⟩ rfl
